import Mathlib

/-!
Verification of the MSM ARMv8 secondary-CPU boot coordinator
(drivers/soc/qcom/cpu_ops.c).

The development shallowly embeds the driver: register programming is
recorded as an explicit event trace, the spin-table handshake loop is
modelled with an explicit microsecond clock and an oracle describing when
(if ever) the secondary core clears the shared holding-pen register, and
device-tree / ioremap / firmware outcomes are supplied by an environment
record.  Every definition mirrors the corresponding C function.
-/

namespace CpuOps

/-- CPU power domain register offset (cpu_ops.c line 36). -/
def CPU_PWR_CTL : Nat := 0x4

/-- CPU power domain register offset (cpu_ops.c line 37). -/
def CPU_PWR_GATE_CTL : Nat := 0x14

/-- L2 power domain register offset (cpu_ops.c line 40). -/
def L2_PWR_CTL_OVERRIDE : Nat := 0xc

/-- L2 power domain register offset (cpu_ops.c line 41). -/
def L2_PWR_CTL : Nat := 0x14

/-- L2 power domain register offset (cpu_ops.c line 42). -/
def L2_PWR_STATUS : Nat := 0x18

/-- L2 power domain register offset (cpu_ops.c line 43). -/
def L2_CORE_CBCR : Nat := 0x58

/-- arm64 INVALID_HWID = ULONG_MAX: the sentinel stored in
`secondary_holding_pen_release` when no wake is pending. -/
def INVALID_HWID : Nat := 2 ^ 64 - 1

/-- arm64 MPIDR_HWID_BITMASK: the affinity bits of MPIDR_EL1. -/
def MPIDR_HWID_BITMASK : Nat := 0xff00ffffff

/-- Complement of `MPIDR_HWID_BITMASK` within 64 bits (the bits that must
be clear for a valid hardware id). -/
def MPIDR_NOT_HWID_MASK : Nat := 2 ^ 64 - 1 - MPIDR_HWID_BITMASK

/-- The 1-second handshake deadline of `secondary_pen_release`
(`jiffies + 1 * HZ`), expressed in microseconds. -/
def BOOT_TIMEOUT_US : Nat := 1000000

/-- 2 to the 64th: the modulus of the 64-bit stores performed by the
driver (`secondary_holding_pen_release` is an `unsigned long`). -/
def U64 : Nat := 2 ^ 64

/-- Linux errno: function not implemented. -/
def ENOSYS : Int := 38

/-- Linux errno: no such device. -/
def ENODEV : Int := 19

/-- Linux errno: out of memory. -/
def ENOMEM : Int := 12

/-- Register blocks touched by the boot coordinator: the L2 power-domain
block and the per-core access-control (ACC) block. -/
inductive Blk
  | l2pd
  | acc
deriving DecidableEq, Repr

/-- Observable events emitted by the coordinator: relaxed register
reads/writes tagged with their block, full memory barriers, microsecond
delays, writes and timed reads of the shared holding-pen word, the write
memory barrier, the data-cache flush, the `sev` instruction and the boot
lock operations. -/
inductive Ev
  | readl (b : Blk) (off : Nat)
  | writel (b : Blk) (off val : Nat)
  | mb
  | udelay (us : Nat)
  | penWrite (val : Nat)
  | wmb
  | dcacheFlush
  | sev
  | lockAcquire
  | lockRelease
  | penRead (t : Nat)
deriving DecidableEq, Repr

/-- Is the event a write to the per-core ACC block (the core power-rail
sequence of `msm_unclamp_secondary_arm_cpu`)? -/
def isAccWrite : Ev → Bool
  | .writel .acc _ _ => true
  | _ => false

/-- Is the event a memory-mapped hardware register event (read, write,
barrier or delay), as opposed to a holding-pen or lock event? -/
def isHwEv : Ev → Bool
  | .readl _ _ => true
  | .writel _ _ _ => true
  | .mb => true
  | .udelay _ => true
  | _ => false

/-- Is the event a microsecond delay? -/
def isUdelayEv : Ev → Bool
  | .udelay _ => true
  | _ => false

/-- Is the event a memory-mapped register write? -/
def isWriteEv : Ev → Bool
  | .writel _ _ _ => true
  | _ => false

/-- Oracle for everything the driver obtains from the outside world:
`cpu_logical_map`, presence of the device-tree nodes and phandles it
resolves, success of the two `of_iomap` calls, the value read from the L2
power status register, and the return value of
`qcom_scm_set_cold_boot_addr_mc`. -/
structure HwEnv where
  cpu_logical_map : Nat → Nat
  cpu_node_present : Nat → Bool
  acc_node_present : Nat → Bool
  l2_node_present : Nat → Bool
  l2pd_node_present : Nat → Bool
  l2pd_iomap_ok : Nat → Bool
  acc_iomap_ok : Nat → Bool
  l2_pwr_status : Nat → Nat
  scm_ret : Nat → Int

/-- Behaviour of the woken secondary core during one `secondary_pen_release`
call: `arrival` is the instant (microseconds after the pen word is
published) at which the secondary's sentinel write becomes visible (`none`
if the core never arrives), and `postDelay` is the time that passes between
the poll loop exiting and the post-loop re-read of the pen word in the
`return` statement. -/
structure PenEnv where
  arrival : Option Nat
  postDelay : Nat

/-- The primary-side kernel state the boot path mutates: the per-cpu
`cold_boot_done` flags. -/
structure KState where
  cold_boot_done : Nat → Bool

/-- State visible to `msm_cpu_postboot`: the shared holding-pen word and
the per-cpu `cold_boot_done` flags. -/
structure PostState where
  pen : Nat
  cold_boot_done : Nat → Bool

/-- Events of `write_pen_release` (cpu_ops.c lines 52-60): store the
value, `smp_wmb`, flush the cache line of the word. -/
def write_pen_release_tr (v : Nat) : List Ev :=
  [.penWrite v, .wmb, .dcacheFlush]

/-- `write_pen_release` (cpu_ops.c lines 52-60) as a state transformer:
stores the 64-bit value into `secondary_holding_pen_release`. -/
def write_pen_release (st : PostState) (v : Nat) : PostState × List Ev :=
  ({ st with pen := v % U64 }, write_pen_release_tr (v % U64))

/-- Value of `secondary_holding_pen_release` at time `t` (microseconds)
after `secondary_pen_release` published `hwid`, given the secondary's
arrival time: once the arrival instant has passed the word reads the
sentinel, before that it reads the published hardware id. -/
def penAt (hwid : Nat) (arrival : Option Nat) (t : Nat) : Nat :=
  match arrival with
  | none => hwid
  | some a => if a ≤ t then INVALID_HWID else hwid

/-- Exit time of the poll loop of `secondary_pen_release` (cpu_ops.c
lines 78-83): starting at time `now`, while the deadline `D` has not
passed, read the pen word and stop if it is the sentinel, otherwise
`udelay(10)` and retry.  The structural `fuel` argument only bounds the
recursion; each call site supplies fuel exceeding the worst-case iteration
count, so the loop is always cut by its own deadline test. -/
def pollExitF (hwid : Nat) (arrival : Option Nat) (D : Nat) : Nat → Nat → Nat
  | 0, now => now
  | f + 1, now =>
    if now < D then
      if penAt hwid arrival now = INVALID_HWID then now
      else pollExitF hwid arrival D f (now + 10)
    else now

/-- Event trace of the poll loop of `secondary_pen_release` (cpu_ops.c
lines 78-83): one timed pen read per iteration, a 10 microsecond delay
between consecutive reads. -/
def pollTraceF (hwid : Nat) (arrival : Option Nat) (D : Nat) : Nat → Nat → List Ev
  | 0, _ => []
  | f + 1, now =>
    if now < D then
      if penAt hwid arrival now = INVALID_HWID then [.penRead now]
      else .penRead now :: .udelay 10 :: pollTraceF hwid arrival D f (now + 10)
    else []

/-- Exit time of the 1-second poll loop (fuel = one unit per microsecond
of deadline, far above the 100001 worst-case iterations). -/
def pollExit (hwid : Nat) (arrival : Option Nat) : Nat :=
  pollExitF hwid arrival BOOT_TIMEOUT_US BOOT_TIMEOUT_US 0

/-- Event trace of the 1-second poll loop. -/
def pollTr (hwid : Nat) (arrival : Option Nat) : List Ev :=
  pollTraceF hwid arrival BOOT_TIMEOUT_US BOOT_TIMEOUT_US 0

/-- `secondary_pen_release` (cpu_ops.c lines 62-87): under the boot lock,
publish `cpu_logical_map(cpu)` into the pen word (store, `smp_wmb`, cache
flush), issue `sev`, poll the word every 10 microseconds until it reads
the sentinel or one second has elapsed, drop the lock, and then decide the
return value by re-reading the pen word: `-ENOSYS` if it still differs
from the sentinel, `0` otherwise. -/
def secondary_pen_release (env : HwEnv) (pe : PenEnv) (cpu : Nat) : Int × List Ev :=
  (if penAt (env.cpu_logical_map cpu % U64) pe.arrival
      (pollExit (env.cpu_logical_map cpu % U64) pe.arrival + pe.postDelay) ≠
      INVALID_HWID
   then -ENOSYS else 0,
   .lockAcquire :: write_pen_release_tr (env.cpu_logical_map cpu % U64) ++ [.sev] ++
     pollTr (env.cpu_logical_map cpu % U64) pe.arrival ++
     [.lockRelease,
      .penRead (pollExit (env.cpu_logical_map cpu % U64) pe.arrival + pe.postDelay)])

/-- `msm_power_on_l2_cache` (cpu_ops.c lines 147-201): map the L2 power
domain (`-ENOMEM` on failure), read the status register and skip the whole
sequence if bit 9 is set, otherwise perform the fixed L2 power-up write
sequence. -/
def msm_power_on_l2_cache (env : HwEnv) (cpu : Nat) : Int × List Ev :=
  if env.l2pd_iomap_ok cpu = false then (-ENOMEM, [])
  else if env.l2_pwr_status cpu &&& (1 <<< 9) ≠ 0 then
    (0, [.readl .l2pd L2_PWR_STATUS])
  else
    (0, [.readl .l2pd L2_PWR_STATUS,
         .writel .l2pd L2_PWR_CTL 0x10D700,
         .writel .l2pd L2_PWR_CTL_OVERRIDE 0x400000, .mb, .udelay 2,
         .writel .l2pd L2_PWR_CTL 0x101700,
         .writel .l2pd L2_PWR_CTL 0x101703, .mb, .udelay 2,
         .writel .l2pd L2_CORE_CBCR 0x01,
         .writel .l2pd L2_PWR_CTL 0x101603, .mb, .udelay 2,
         .writel .l2pd L2_PWR_CTL_OVERRIDE 0x0,
         .writel .l2pd L2_PWR_CTL 0x100203, .mb, .udelay 54,
         .writel .l2pd L2_PWR_CTL 0x10100203,
         .writel .l2pd L2_CORE_CBCR 0x03, .mb])

/-- `msm_unclamp_secondary_arm_cpu` (cpu_ops.c lines 203-289): resolve the
cpu node, its `qcom,acc` phandle, its `next-level-cache` phandle and the
L2 `power-domain` phandle (`-ENODEV` if any is absent), power the L2
cache, map the ACC block (`-ENOMEM` on failure) and run the 7-write core
power-rail sequence. -/
def msm_unclamp_secondary_arm_cpu (env : HwEnv) (cpu : Nat) : Int × List Ev :=
  if env.cpu_node_present cpu = false then (-ENODEV, [])
  else if env.acc_node_present cpu = false then (-ENODEV, [])
  else if env.l2_node_present cpu = false then (-ENODEV, [])
  else if env.l2pd_node_present cpu = false then (-ENODEV, [])
  else if (msm_power_on_l2_cache env cpu).1 ≠ 0 then msm_power_on_l2_cache env cpu
  else if env.acc_iomap_ok cpu = false then (-ENOMEM, (msm_power_on_l2_cache env cpu).2)
  else
    (0, (msm_power_on_l2_cache env cpu).2 ++
        [.writel .acc CPU_PWR_CTL 0x00000033, .mb,
         .writel .acc CPU_PWR_GATE_CTL 0x10000001, .mb, .udelay 2,
         .writel .acc CPU_PWR_CTL 0x00000031, .mb,
         .writel .acc CPU_PWR_CTL 0x00000039, .mb, .udelay 2,
         .writel .acc CPU_PWR_CTL 0x00020038, .mb, .udelay 2,
         .writel .acc CPU_PWR_CTL 0x00020008, .mb,
         .writel .acc CPU_PWR_CTL 0x00020088, .mb])

/-- `msm_cpu_boot` (cpu_ops.c lines 291-304): if the core's
`cold_boot_done` flag is false, run the one-time power-on and propagate
its error, otherwise mark the flag and fall through to the pen-release
handshake. -/
def msm_cpu_boot (env : HwEnv) (pe : PenEnv) (st : KState) (cpu : Nat) :
    Int × KState × List Ev :=
  if st.cold_boot_done cpu = false then
    if (msm_unclamp_secondary_arm_cpu env cpu).1 ≠ 0 then
      ((msm_unclamp_secondary_arm_cpu env cpu).1, st,
       (msm_unclamp_secondary_arm_cpu env cpu).2)
    else
      ((secondary_pen_release env pe cpu).1,
       ⟨fun c => if c = cpu then true else st.cold_boot_done c⟩,
       (msm_unclamp_secondary_arm_cpu env cpu).2 ++ (secondary_pen_release env pe cpu).2)
  else
    ((secondary_pen_release env pe cpu).1, st, (secondary_pen_release env pe cpu).2)

/-- A sequence of `msm_cpu_boot` calls for the same core, one `PenEnv`
per call, threading the kernel state. -/
def runBoots (env : HwEnv) (cpu : Nat) : KState → List PenEnv → KState × List (Int × List Ev)
  | st, [] => (st, [])
  | st, pe :: pes =>
    ((runBoots env cpu (msm_cpu_boot env pe st cpu).2.1 pes).1,
     ((msm_cpu_boot env pe st cpu).1, (msm_cpu_boot env pe st cpu).2.2) ::
       (runBoots env cpu (msm_cpu_boot env pe st cpu).2.1 pes).2)

/-- `msm_cpu_prepare` (cpu_ops.c lines 121-145): reject a hardware id with
bits outside `MPIDR_HWID_BITMASK` (`-ENOSYS`), call the secure monitor to
set the cold boot address (`-ENOSYS` if it fails), then mark CPU0's
`cold_boot_done` flag. -/
def msm_cpu_prepare (env : HwEnv) (st : KState) (cpu : Nat) : Int × KState :=
  if env.cpu_logical_map cpu % U64 &&& MPIDR_NOT_HWID_MASK ≠ 0 then (-ENOSYS, st)
  else if env.scm_ret cpu ≠ 0 then (-ENOSYS, st)
  else if st.cold_boot_done 0 = false then
    (0, ⟨fun c => if c = 0 then true else st.cold_boot_done c⟩)
  else (0, st)

/-- `msm_cpu_postboot` (cpu_ops.c lines 306-318): the woken secondary
writes the sentinel into the pen word via `write_pen_release`, then
acquires and immediately releases the boot lock. -/
def msm_cpu_postboot (st : PostState) : PostState × List Ev :=
  ((write_pen_release st INVALID_HWID).1,
   (write_pen_release st INVALID_HWID).2 ++ [.lockAcquire, .lockRelease])

/-- Program counter of one primary-side thread running
`secondary_pen_release`: before the `raw_spin_lock`, holding the lock
before the pen write, polling after the pen write, and after the
`raw_spin_unlock`. -/
inductive PPhase
  | idle
  | locked
  | published
  | finished
deriving DecidableEq, Repr

/-- Interleaving state for `n` concurrent `secondary_pen_release` callers:
each thread's phase, the owner of the raw spinlock `boot_lock`, and the
shared pen word. -/
structure PSys (n : Nat) where
  pc : Fin n → PPhase
  owner : Option (Fin n)
  pen : Nat

/-- Atomic steps of the handshake protocol: a thread takes the free boot
lock (cpu_ops.c line 70), the lock holder publishes its hardware id into
the pen word (line 71), the lock holder releases the lock (line 84), and
the secondary side clears the word to the sentinel without taking the lock
(line 311). -/
inductive PStep (hw : Nat → Nat) {n : Nat} : PSys n → PSys n → Prop
  | lock (s : PSys n) (i : Fin n) :
      s.pc i = .idle → s.owner = none →
      PStep hw s ⟨Function.update s.pc i .locked, some i, s.pen⟩
  | publish (s : PSys n) (i : Fin n) :
      s.pc i = .locked →
      PStep hw s ⟨Function.update s.pc i .published, s.owner, hw i.val % U64⟩
  | unlock (s : PSys n) (i : Fin n) :
      s.pc i = .published →
      PStep hw s ⟨Function.update s.pc i .finished, none, s.pen⟩
  | clear (s : PSys n) :
      PStep hw s ⟨s.pc, s.owner, INVALID_HWID⟩

/-- Initial interleaving state: every thread idle, lock free, pen word at
the sentinel. -/
def pinit (n : Nat) : PSys n :=
  ⟨fun _ => .idle, none, INVALID_HWID⟩

/-- Reachability of an interleaving state from the initial state. -/
def PReach (hw : Nat → Nat) {n : Nat} (s : PSys n) : Prop :=
  Relation.ReflTransGen (PStep hw) (pinit n) s

/-- Lock invariant: any thread that is between its lock acquisition and
its lock release is the recorded owner of the boot lock. -/
def PInv {n : Nat} (s : PSys n) : Prop :=
  ∀ i : Fin n, s.pc i = PPhase.locked ∨ s.pc i = PPhase.published →
    s.owner = some i

/-- Concrete hardware-id map used by the closed witnesses. -/
def map1 : Nat → Nat := fun cpu => cpu + 1

/-- Environment in which every lookup succeeds, the L2 cache is not
yet powered and the secure monitor accepts the boot address. -/
def env_ok : HwEnv :=
  { cpu_logical_map := map1
    cpu_node_present := fun _ => true
    acc_node_present := fun _ => true
    l2_node_present := fun _ => true
    l2pd_node_present := fun _ => true
    l2pd_iomap_ok := fun _ => true
    acc_iomap_ok := fun _ => true
    l2_pwr_status := fun _ => 0
    scm_ret := fun _ => 0 }

/-- `env_ok` with the L2 status register reporting bit 9 set (cache
already powered). -/
def env_skip : HwEnv := { env_ok with l2_pwr_status := fun _ => 512 }

/-- `env_ok` with the `qcom,acc` phandle absent. -/
def env_noacc : HwEnv := { env_ok with acc_node_present := fun _ => false }

/-- `env_ok` with the L2 power-domain `of_iomap` failing. -/
def env_nol2pdmap : HwEnv := { env_ok with l2pd_iomap_ok := fun _ => false }

/-- `env_ok` with the ACC `of_iomap` failing. -/
def env_noaccmap : HwEnv := { env_ok with acc_iomap_ok := fun _ => false }

/-- Kernel state with every `cold_boot_done` flag false. -/
def st_false : KState := ⟨fun _ => false⟩

/-- Kernel state in which only core 5 has completed its cold boot. -/
def st_five : KState := ⟨fun c => decide (c = 5)⟩

/-- Secondary behaviour: the clear is visible immediately. -/
def pe0 : PenEnv := ⟨some 0, 0⟩

/-- Secondary behaviour: the clear lands 15 microseconds after publish. -/
def pe15 : PenEnv := ⟨some 15, 0⟩

/-- Secondary behaviour: the clear lands 5 microseconds after the
1-second deadline, and the post-loop re-read happens 10 microseconds
after the loop exits. -/
def pe_late : PenEnv := ⟨some 1000005, 10⟩

/-- One-thread interleaving state after a single lock step. -/
def psys1 : PSys 1 :=
  ⟨Function.update (fun _ => PPhase.idle) 0 PPhase.locked, some 0, INVALID_HWID⟩

/-- If the pen word never reads the sentinel before the deadline, the poll
loop runs to the deadline exactly (the poll times advance by 10 from a
multiple of 10, so they hit a deadline that is a multiple of 10). -/
theorem pollExitF_no_break (hwid : Nat) (arrival : Option Nat) (D : Nat)
    (hD : D % 10 = 0)
    (hok : ∀ t, t < D → penAt hwid arrival t ≠ INVALID_HWID) :
    ∀ f now, D ≤ now + 10 * f → now % 10 = 0 → now ≤ D →
      pollExitF hwid arrival D f now = D := by
  intro f
  induction f with
  | zero =>
    intro now hf _ hle
    have : now = D := by omega
    simpa [pollExitF] using this
  | succ f ih =>
    intro now hf h10 hle
    by_cases hlt : now < D
    · have hpen := hok now hlt
      rw [pollExitF]
      simp only [hlt, if_true, hpen, if_false]
      exact ih (now + 10) (by omega) (by omega) (by omega)
    · have : now = D := by omega
      rw [pollExitF]
      simp [hlt, this]

/-- The poll loop exits either because the pen word reads the sentinel or
because the deadline has passed. -/
theorem pollExitF_cond (hwid : Nat) (arrival : Option Nat) (D : Nat) :
    ∀ f now, D ≤ now + 10 * f →
      penAt hwid arrival (pollExitF hwid arrival D f now) = INVALID_HWID ∨
        D ≤ pollExitF hwid arrival D f now := by
  intro f
  induction f with
  | zero =>
    intro now hf
    right
    simpa [pollExitF] using by omega
  | succ f ih =>
    intro now hf
    rw [pollExitF]
    by_cases hlt : now < D
    · simp only [hlt, if_true]
      by_cases hpen : penAt hwid arrival now = INVALID_HWID
      · simp [hpen]
      · simp only [hpen, if_false]
        exact ih (now + 10) (by omega)
    · simp only [hlt, if_false]
      right
      omega

/-- Every event of the poll loop trace is either a timed pen read (at a
time congruent to the start time modulo 10, before the deadline) or a
10-microsecond delay. -/
theorem pollTraceF_mem (hwid : Nat) (arrival : Option Nat) (D : Nat) :
    ∀ f now e, e ∈ pollTraceF hwid arrival D f now →
      (∃ t, e = Ev.penRead t ∧ t % 10 = now % 10 ∧ now ≤ t ∧ t < D) ∨
        e = Ev.udelay 10 := by
  intro f
  induction f with
  | zero => intro now e he; simp [pollTraceF] at he
  | succ f ih =>
    intro now e he
    rw [pollTraceF] at he
    by_cases hlt : now < D
    · simp only [hlt, if_true] at he
      by_cases hpen : penAt hwid arrival now = INVALID_HWID
      · simp only [hpen, if_true] at he
        simp only [List.mem_singleton] at he
        exact Or.inl ⟨now, he, rfl, Nat.le_refl now, hlt⟩
      · simp only [hpen, if_false, List.mem_cons] at he
        rcases he with rfl | rfl | he
        · exact Or.inl ⟨now, rfl, rfl, Nat.le_refl now, hlt⟩
        · exact Or.inr rfl
        · rcases ih (now + 10) e he with ⟨t, rfl, ht, hge, hlt2⟩ | rfl
          · exact Or.inl ⟨t, rfl, by omega, by omega, hlt2⟩
          · exact Or.inr rfl
    · simp [hlt] at he

/-- The poll loop trace contains no ACC-block write. -/
theorem pollTraceF_no_acc (hwid : Nat) (arrival : Option Nat) (D : Nat) :
    ∀ f now, (pollTraceF hwid arrival D f now).any isAccWrite = false := by
  intro f
  induction f with
  | zero => intro now; simp [pollTraceF]
  | succ f ih =>
    intro now
    rw [pollTraceF]
    by_cases hlt : now < D
    · by_cases hpen : penAt hwid arrival now = INVALID_HWID
      · simp [hlt, hpen, isAccWrite]
      · simp [hlt, hpen, isAccWrite, ih (now + 10)]
    · simp [hlt]

/-- The pen-release handshake emits no ACC-block write. -/
theorem spr_no_acc (env : HwEnv) (pe : PenEnv) (cpu : Nat) :
    ((secondary_pen_release env pe cpu).2).any isAccWrite = false := by
  simp [secondary_pen_release, write_pen_release_tr, pollTr, isAccWrite,
    pollTraceF_no_acc]

/-- The L2 power-up trace consists of hardware register events only. -/
theorem l2_trace_hw (env : HwEnv) (cpu : Nat) :
    ((msm_power_on_l2_cache env cpu).2).all isHwEv = true := by
  rw [msm_power_on_l2_cache]
  split
  · decide
  · split <;> decide

/-- The L2 power-up trace contains no ACC-block write. -/
theorem l2_trace_no_acc (env : HwEnv) (cpu : Nat) :
    ((msm_power_on_l2_cache env cpu).2).any isAccWrite = false := by
  rw [msm_power_on_l2_cache]
  split
  · decide
  · split <;> decide

/-- `msm_power_on_l2_cache` succeeds whenever the L2 power domain maps. -/
theorem l2_result (env : HwEnv) (cpu : Nat)
    (h : env.l2pd_iomap_ok cpu = true) :
    (msm_power_on_l2_cache env cpu).1 = 0 := by
  rw [msm_power_on_l2_cache]
  rw [if_neg (by simp [h])]
  split <;> rfl

/-- The one-time power-on trace consists of hardware register events
only: it never touches the pen word or the boot lock. -/
theorem unclamp_trace_hw (env : HwEnv) (cpu : Nat) :
    ((msm_unclamp_secondary_arm_cpu env cpu).2).all isHwEv = true := by
  rw [msm_unclamp_secondary_arm_cpu]
  split
  · decide
  split
  · decide
  split
  · decide
  split
  · decide
  split
  · exact l2_trace_hw env cpu
  split
  · exact l2_trace_hw env cpu
  · simp only [List.all_append, l2_trace_hw env cpu, Bool.true_and]
    decide

/-- If the one-time power-on emitted an ACC-block write then it ran to
completion and returned success: every failure exit happens before the
first rail write. -/
theorem unclamp_acc_succ (env : HwEnv) (cpu : Nat)
    (h : ((msm_unclamp_secondary_arm_cpu env cpu).2).any isAccWrite = true) :
    (msm_unclamp_secondary_arm_cpu env cpu).1 = 0 := by
  by_cases h1 : env.cpu_node_present cpu = false
  · rw [msm_unclamp_secondary_arm_cpu] at h
    simp [h1] at h
  by_cases h2 : env.acc_node_present cpu = false
  · rw [msm_unclamp_secondary_arm_cpu] at h
    simp [h1, h2] at h
  by_cases h3 : env.l2_node_present cpu = false
  · rw [msm_unclamp_secondary_arm_cpu] at h
    simp [h1, h2, h3] at h
  by_cases h4 : env.l2pd_node_present cpu = false
  · rw [msm_unclamp_secondary_arm_cpu] at h
    simp [h1, h2, h3, h4] at h
  by_cases h5 : (msm_power_on_l2_cache env cpu).1 ≠ 0
  · rw [msm_unclamp_secondary_arm_cpu] at h
    simp [h1, h2, h3, h4, h5, l2_trace_no_acc env cpu] at h
  push_neg at h5
  by_cases h6 : env.acc_iomap_ok cpu = false
  · rw [msm_unclamp_secondary_arm_cpu] at h
    simp [h1, h2, h3, h4, h5, h6, l2_trace_no_acc env cpu] at h
  · rw [msm_unclamp_secondary_arm_cpu]
    simp [h1, h2, h3, h4, h5, h6]

/-- `msm_cpu_boot` never clears a `cold_boot_done` flag. -/
theorem boot_mono (env : HwEnv) (pe : PenEnv) (st : KState) (cpu c : Nat)
    (h : st.cold_boot_done c = true) :
    (msm_cpu_boot env pe st cpu).2.1.cold_boot_done c = true := by
  rw [msm_cpu_boot]
  split
  · split
    · exact h
    · simp only
      split <;> simp [h]
  · exact h

/-- When the core's flag is already set, `msm_cpu_boot` leaves the state
untouched and performs exactly the pen-release handshake. -/
theorem boot_done (env : HwEnv) (pe : PenEnv) (st : KState) (cpu : Nat)
    (h : st.cold_boot_done cpu = true) :
    msm_cpu_boot env pe st cpu =
      ((secondary_pen_release env pe cpu).1, st, (secondary_pen_release env pe cpu).2) := by
  rw [msm_cpu_boot]
  rw [if_neg (by simp [h])]

/-- If a `msm_cpu_boot` call emitted an ACC-block rail write, then at its
end the core's `cold_boot_done` flag is set. -/
theorem boot_acc_sets_flag (env : HwEnv) (pe : PenEnv) (st : KState) (cpu : Nat)
    (h : ((msm_cpu_boot env pe st cpu).2.2).any isAccWrite = true) :
    (msm_cpu_boot env pe st cpu).2.1.cold_boot_done cpu = true := by
  by_cases hf : st.cold_boot_done cpu = false
  · rw [msm_cpu_boot] at h ⊢
    simp only [hf, if_true] at h ⊢
    by_cases hu : (msm_unclamp_secondary_arm_cpu env cpu).1 ≠ 0
    · rw [if_pos hu] at h
      exact absurd (unclamp_acc_succ env cpu h) hu
    · rw [if_neg hu] at h ⊢
      simp
  · simp only [Bool.not_eq_false] at hf
    exact boot_mono env pe st cpu cpu hf

/-- `runBoots` never clears a `cold_boot_done` flag. -/
theorem run_mono (env : HwEnv) (cpu : Nat) :
    ∀ (pes : List PenEnv) (st : KState) (c : Nat), st.cold_boot_done c = true →
      (runBoots env cpu st pes).1.cold_boot_done c = true := by
  intro pes
  induction pes with
  | nil => intro st c h; simpa [runBoots] using h
  | cons pe pes ih =>
    intro st c h
    rw [runBoots]
    exact ih _ c (boot_mono env pe st cpu c h)

/-- Once the core's flag is set, no later `msm_cpu_boot` call for it emits
an ACC-block rail write. -/
theorem run_acc_zero (env : HwEnv) (cpu : Nat) :
    ∀ (pes : List PenEnv) (st : KState), st.cold_boot_done cpu = true →
      ((runBoots env cpu st pes).2).countP (fun o => (o.2).any isAccWrite) = 0 := by
  intro pes
  induction pes with
  | nil => intro st _; simp [runBoots]
  | cons pe pes ih =>
    intro st h
    rw [runBoots]
    rw [List.countP_cons]
    have hb := boot_done env pe st cpu h
    simp only [hb, spr_no_acc env pe cpu]
    simpa using ih st h

/-- Across any sequence of boots of one core, at most one call emits the
core power-rail write sequence. -/
theorem run_acc_le_one (env : HwEnv) (cpu : Nat) :
    ∀ (pes : List PenEnv) (st : KState),
      ((runBoots env cpu st pes).2).countP (fun o => (o.2).any isAccWrite) ≤ 1 := by
  intro pes
  induction pes with
  | nil => intro st; simp [runBoots]
  | cons pe pes ih =>
    intro st
    rw [runBoots]
    rw [List.countP_cons]
    by_cases hacc : ((msm_cpu_boot env pe st cpu).2.2).any isAccWrite = true
    · have hflag := boot_acc_sets_flag env pe st cpu hacc
      have hrest := run_acc_zero env cpu pes _ hflag
      simp only [hrest, hacc]
      simp
    · simp only [Bool.not_eq_true] at hacc
      simp only [hacc]
      simpa using ih _

/-- The lock invariant is preserved by every step of the handshake
protocol. -/
theorem pstep_inv (hw : Nat → Nat) {n : Nat} {s t : PSys n}
    (hstep : PStep hw s t) (hinv : PInv s) : PInv t := by
  cases hstep with
  | lock i hpc hown =>
    intro j hj
    by_cases hij : j = i
    · simp [hij]
    · simp only [Function.update_noteq hij] at hj
      exact absurd (hinv j hj) (by simp [hown])
  | publish i hpc =>
    intro j hj
    by_cases hij : j = i
    · subst hij
      exact hinv j (Or.inl hpc)
    · simp only [Function.update_noteq hij] at hj
      exact hinv j hj
  | unlock i hpc =>
    intro j hj
    by_cases hij : j = i
    · subst hij
      simp at hj
    · simp only [Function.update_noteq hij] at hj
      have h1 := hinv j hj
      have h2 := hinv i (Or.inr hpc)
      rw [h2] at h1
      exact absurd (Option.some.inj h1) (Ne.symm hij)
  | clear =>
    intro j hj
    exact hinv j hj

/-- The lock invariant holds in every reachable state. -/
theorem preach_inv (hw : Nat → Nat) {n : Nat} {s : PSys n}
    (h : PReach hw s) : PInv s := by
  induction h with
  | refl => intro j hj; simp [pinit] at hj
  | tail _ hstep ih => exact pstep_inv hw hstep ih

/-- When the L2 power domain fails to map, the power-up reports
`-ENOMEM` without reading or writing anything. -/
theorem l2_fail (env : HwEnv) (cpu : Nat)
    (h : env.l2pd_iomap_ok cpu = false) :
    msm_power_on_l2_cache env cpu = (-ENOMEM, []) := by
  rw [msm_power_on_l2_cache]
  rw [if_pos h]

/-- The L2 power-up trace never contains an ACC-block write (filter
form). -/
theorem l2_filter_acc (env : HwEnv) (cpu : Nat) :
    ((msm_power_on_l2_cache env cpu).2).filter isAccWrite = [] := by
  rw [msm_power_on_l2_cache]
  split
  · decide
  · split <;> decide

/-- Claim C4: if, on entry to the L2 power-up, the status register reads
with bit 9 set (and the register block mapped so the read happened), the
operation performs the status read only — zero writes to any L2
register — and returns success. -/
theorem l2_powerup_idempotent (env : HwEnv) (cpu : Nat)
    (hmap : env.l2pd_iomap_ok cpu = true)
    (hbit : env.l2_pwr_status cpu &&& (1 <<< 9) ≠ 0) :
    (msm_power_on_l2_cache env cpu).1 = 0 ∧
    (msm_power_on_l2_cache env cpu).2 = [Ev.readl Blk.l2pd L2_PWR_STATUS] ∧
    ((msm_power_on_l2_cache env cpu).2).all (fun e => !isWriteEv e) = true := by
  rw [msm_power_on_l2_cache]
  rw [if_neg (by simp [hmap]), if_pos hbit]
  exact ⟨rfl, rfl, by decide⟩

/-- Witness for C4: the environment whose L2 status register reads 512
(bit 9 set) takes the no-op path. -/
theorem l2_powerup_idempotent_witness :
    (msm_power_on_l2_cache env_skip 0).1 = 0 ∧
    (msm_power_on_l2_cache env_skip 0).2 = [Ev.readl Blk.l2pd L2_PWR_STATUS] ∧
    ((msm_power_on_l2_cache env_skip 0).2).all (fun e => !isWriteEv e) = true :=
  l2_powerup_idempotent env_skip 0 (by decide) (by decide)

/-- Claim C5 (counterexample): on a run where the rail sequence executes
(topology resolved, L2 already powered, ACC mapped), the power-rail
sequence contains exactly three 2-microsecond delays, not two as
claimed. -/
theorem rail_delay_count_cex :
    (msm_unclamp_secondary_arm_cpu env_skip 0).1 = 0 ∧
    ((msm_unclamp_secondary_arm_cpu env_skip 0).2).countP isUdelayEv = 3 ∧
    ¬((msm_unclamp_secondary_arm_cpu env_skip 0).2).countP isUdelayEv = 2 := by
  decide

/-- Claim C5 (amended): when the per-core power-rail sequencing runs, it
issues exactly 7 ACC register writes in the fixed order assert reset,
program clock-gate skew, de-assert memory clamp, close array gate,
de-assert core clamp, de-assert reset, assert power-up-done, each write
followed by a full memory barrier, with a 2-microsecond delay at exactly
THREE points (after the skew write, after the array-gate write and after
the core-clamp de-assert), and no branching. -/
theorem rail_sequence_amended (env : HwEnv) (cpu : Nat)
    (h1 : env.cpu_node_present cpu = true) (h2 : env.acc_node_present cpu = true)
    (h3 : env.l2_node_present cpu = true) (h4 : env.l2pd_node_present cpu = true)
    (h5 : env.l2pd_iomap_ok cpu = true) (h6 : env.acc_iomap_ok cpu = true) :
    (msm_unclamp_secondary_arm_cpu env cpu).1 = 0 ∧
    (msm_unclamp_secondary_arm_cpu env cpu).2 =
      (msm_power_on_l2_cache env cpu).2 ++
        [Ev.writel .acc CPU_PWR_CTL 0x33, Ev.mb,
         Ev.writel .acc CPU_PWR_GATE_CTL 0x10000001, Ev.mb, Ev.udelay 2,
         Ev.writel .acc CPU_PWR_CTL 0x31, Ev.mb,
         Ev.writel .acc CPU_PWR_CTL 0x39, Ev.mb, Ev.udelay 2,
         Ev.writel .acc CPU_PWR_CTL 0x20038, Ev.mb, Ev.udelay 2,
         Ev.writel .acc CPU_PWR_CTL 0x20008, Ev.mb,
         Ev.writel .acc CPU_PWR_CTL 0x20088, Ev.mb] ∧
    ((msm_unclamp_secondary_arm_cpu env cpu).2).filter isAccWrite =
      [Ev.writel .acc CPU_PWR_CTL 0x33, Ev.writel .acc CPU_PWR_GATE_CTL 0x10000001,
       Ev.writel .acc CPU_PWR_CTL 0x31, Ev.writel .acc CPU_PWR_CTL 0x39,
       Ev.writel .acc CPU_PWR_CTL 0x20038, Ev.writel .acc CPU_PWR_CTL 0x20008,
       Ev.writel .acc CPU_PWR_CTL 0x20088] ∧
    (((msm_unclamp_secondary_arm_cpu env cpu).2).drop
        ((msm_power_on_l2_cache env cpu).2).length).countP isUdelayEv = 3 := by
  have h0 := l2_result env cpu h5
  rw [msm_unclamp_secondary_arm_cpu]
  rw [if_neg (by simp [h1]), if_neg (by simp [h2]), if_neg (by simp [h3]),
    if_neg (by simp [h4]), if_neg (by simp [h0]), if_neg (by simp [h6])]
  refine ⟨rfl, rfl, ?_, ?_⟩
  · rw [List.filter_append, l2_filter_acc env cpu]
    decide
  · rw [List.drop_left]
    decide

/-- Witness for C5 (amended): in the all-success environment with a cold
L2 cache, the rail sequence result and write order are as stated. -/
theorem rail_sequence_amended_witness :
    (msm_unclamp_secondary_arm_cpu env_ok 0).1 = 0 ∧
    ((msm_unclamp_secondary_arm_cpu env_ok 0).2).filter isAccWrite =
      [Ev.writel .acc CPU_PWR_CTL 0x33, Ev.writel .acc CPU_PWR_GATE_CTL 0x10000001,
       Ev.writel .acc CPU_PWR_CTL 0x31, Ev.writel .acc CPU_PWR_CTL 0x39,
       Ev.writel .acc CPU_PWR_CTL 0x20038, Ev.writel .acc CPU_PWR_CTL 0x20008,
       Ev.writel .acc CPU_PWR_CTL 0x20088] :=
  ⟨(rail_sequence_amended env_ok 0 (by decide) (by decide) (by decide) (by decide)
      (by decide) (by decide)).1,
   (rail_sequence_amended env_ok 0 (by decide) (by decide) (by decide) (by decide)
      (by decide) (by decide)).2.2.1⟩

/-- Claim C7: the one-time power-on fails with `-ENODEV` (topology
resolution failure) when the cpu node, the `qcom,acc` phandle, the
`next-level-cache` phandle or the L2 `power-domain` phandle is absent,
and with `-ENOMEM` (address mapping failure) when the L2 or ACC register
block fails to map; each failure is a single negative status, the two
error classes are distinct, and no rail write is issued on any failure. -/
theorem unclamp_error_paths (env : HwEnv) (cpu : Nat) :
    (env.cpu_node_present cpu = false →
        msm_unclamp_secondary_arm_cpu env cpu = (-ENODEV, [])) ∧
    (env.cpu_node_present cpu = true → env.acc_node_present cpu = false →
        msm_unclamp_secondary_arm_cpu env cpu = (-ENODEV, [])) ∧
    (env.cpu_node_present cpu = true → env.acc_node_present cpu = true →
        env.l2_node_present cpu = false →
        msm_unclamp_secondary_arm_cpu env cpu = (-ENODEV, [])) ∧
    (env.cpu_node_present cpu = true → env.acc_node_present cpu = true →
        env.l2_node_present cpu = true → env.l2pd_node_present cpu = false →
        msm_unclamp_secondary_arm_cpu env cpu = (-ENODEV, [])) ∧
    (env.cpu_node_present cpu = true → env.acc_node_present cpu = true →
        env.l2_node_present cpu = true → env.l2pd_node_present cpu = true →
        env.l2pd_iomap_ok cpu = false →
        msm_unclamp_secondary_arm_cpu env cpu = (-ENOMEM, [])) ∧
    (env.cpu_node_present cpu = true → env.acc_node_present cpu = true →
        env.l2_node_present cpu = true → env.l2pd_node_present cpu = true →
        env.l2pd_iomap_ok cpu = true → env.acc_iomap_ok cpu = false →
        (msm_unclamp_secondary_arm_cpu env cpu).1 = -ENOMEM ∧
        (msm_unclamp_secondary_arm_cpu env cpu).2 = (msm_power_on_l2_cache env cpu).2 ∧
        ((msm_unclamp_secondary_arm_cpu env cpu).2).any isAccWrite = false) ∧
    (-ENODEV : Int) ≠ -ENOMEM := by
  refine ⟨?_, ?_, ?_, ?_, ?_, ?_, by decide⟩
  · intro h1
    rw [msm_unclamp_secondary_arm_cpu, if_pos h1]
  · intro h1 h2
    rw [msm_unclamp_secondary_arm_cpu, if_neg (by simp [h1]), if_pos h2]
  · intro h1 h2 h3
    rw [msm_unclamp_secondary_arm_cpu, if_neg (by simp [h1]),
      if_neg (by simp [h2]), if_pos h3]
  · intro h1 h2 h3 h4
    rw [msm_unclamp_secondary_arm_cpu, if_neg (by simp [h1]),
      if_neg (by simp [h2]), if_neg (by simp [h3]), if_pos h4]
  · intro h1 h2 h3 h4 h5
    have hf := l2_fail env cpu h5
    rw [msm_unclamp_secondary_arm_cpu, if_neg (by simp [h1]),
      if_neg (by simp [h2]), if_neg (by simp [h3]), if_neg (by simp [h4]), hf]
    rw [if_pos (by decide)]
  · intro h1 h2 h3 h4 h5 h6
    have h0 := l2_result env cpu h5
    rw [msm_unclamp_secondary_arm_cpu, if_neg (by simp [h1]),
      if_neg (by simp [h2]), if_neg (by simp [h3]), if_neg (by simp [h4]),
      if_neg (by simp [h0]), if_pos h6]
    exact ⟨rfl, rfl, l2_trace_no_acc env cpu⟩

/-- Witness for C7: with the `qcom,acc` phandle absent the power-on
returns `-ENODEV` and performs no register access. -/
theorem unclamp_error_paths_witness :
    msm_unclamp_secondary_arm_cpu env_noacc 0 = (-ENODEV, []) :=
  (unclamp_error_paths env_noacc 0).2.1 (by decide) (by decide)

/-- Claim C1 (counterexample): with the secondary's sentinel write landing
5 microseconds AFTER the 1-second deadline (and the post-loop re-read of
the pen word 10 microseconds after the loop exits), `secondary_pen_release`
returns success 0, not `-ENOSYS`: the return value is decided by a re-read
of the shared word after the loop, which can observe a late arrival. -/
theorem late_arrival_success_cex :
    BOOT_TIMEOUT_US < 1000005 ∧ (secondary_pen_release env_ok pe_late 0).1 = 0 := by
  refine ⟨by decide, ?_⟩
  have hmap : env_ok.cpu_logical_map 0 % U64 = 1 := by decide
  have hok : ∀ t, t < BOOT_TIMEOUT_US → penAt 1 (some 1000005) t ≠ INVALID_HWID := by
    intro t ht
    simp only [BOOT_TIMEOUT_US] at ht
    simp only [penAt]
    rw [if_neg (by omega)]
    decide
  have hexit : pollExit 1 (some 1000005) = BOOT_TIMEOUT_US := by
    have := pollExitF_no_break 1 (some 1000005) BOOT_TIMEOUT_US (by decide) hok
      BOOT_TIMEOUT_US 0 (by decide) (by decide) (by decide)
    simpa [pollExit] using this
  have hpen : penAt 1 (some 1000005) (BOOT_TIMEOUT_US + 10) = INVALID_HWID := by
    decide
  simp only [secondary_pen_release, hmap]
  have harr : pe_late.arrival = some 1000005 := rfl
  have hpost : pe_late.postDelay = 10 := rfl
  rw [harr, hpost, hexit]
  rw [if_neg (by simp [hpen])]

/-- Claim C1 (amended): `requestWake` returns success if and only if the
pen word reads the sentinel at the post-loop re-read that computes the
return value.  In particular an arrival at or before the 1-second deadline
guarantees success, and if the secondary never arrives the call returns
`-ENOSYS` (SecondaryBootTimeout); but an arrival after the deadline that
lands before the post-loop re-read also yields success. -/
theorem pen_release_result_amended (env : HwEnv) (pe : PenEnv) (cpu : Nat)
    (hneq : env.cpu_logical_map cpu % U64 ≠ INVALID_HWID) :
    ((secondary_pen_release env pe cpu).1 = 0 ↔
      penAt (env.cpu_logical_map cpu % U64) pe.arrival
        (pollExit (env.cpu_logical_map cpu % U64) pe.arrival + pe.postDelay) =
        INVALID_HWID) ∧
    (∀ a, pe.arrival = some a → a ≤ BOOT_TIMEOUT_US →
        (secondary_pen_release env pe cpu).1 = 0) ∧
    (pe.arrival = none → (secondary_pen_release env pe cpu).1 = -ENOSYS) := by
  refine ⟨?_, ?_, ?_⟩
  · constructor
    · intro h0
      by_contra hpen
      simp only [secondary_pen_release] at h0
      rw [if_pos hpen] at h0
      exact absurd (show (-ENOSYS : Int) = 0 from h0) (by decide)
    · intro hpen
      simp only [secondary_pen_release]
      rw [if_neg (not_not_intro hpen)]
  · intro a ha hle
    have hcond := pollExitF_cond (env.cpu_logical_map cpu % U64) pe.arrival
      BOOT_TIMEOUT_US BOOT_TIMEOUT_US 0 (by decide)
    have he : pollExitF (env.cpu_logical_map cpu % U64) pe.arrival
        BOOT_TIMEOUT_US BOOT_TIMEOUT_US 0 =
        pollExit (env.cpu_logical_map cpu % U64) pe.arrival := rfl
    rw [he] at hcond
    rw [ha] at hcond
    have hax : a ≤ pollExit (env.cpu_logical_map cpu % U64) (some a) := by
      rcases hcond with hc | hc
      · simp only [penAt] at hc
        by_contra hgt
        push_neg at hgt
        rw [if_neg (by omega)] at hc
        exact hneq hc
      · omega
    have hfin : penAt (env.cpu_logical_map cpu % U64) (some a)
        (pollExit (env.cpu_logical_map cpu % U64) (some a) + pe.postDelay) =
        INVALID_HWID := by
      simp only [penAt]
      rw [if_pos (by omega)]
    simp only [secondary_pen_release, ha]
    rw [if_neg (not_not_intro hfin)]
  · intro ha
    simp only [secondary_pen_release]
    rw [if_pos (by simp only [ha, penAt]; exact hneq)]

/-- Witness for C1 (amended): an arrival at time 0 (before the deadline)
makes the call return success. -/
theorem pen_release_result_amended_witness :
    (secondary_pen_release env_ok pe0 0).1 = 0 :=
  (pen_release_result_amended env_ok pe0 0 (by decide)).2.1 0 rfl (by decide)

/-- Claim C6: the handshake publishes in the exact order lock, pen write
of the core's hardware id, write memory barrier, cache flush of that word,
`sev`; only then does it busy-poll the word — every delay in the trace is
exactly 10 microseconds, every poll read happens at a multiple of 10
microseconds before the deadline, and the loop exits only on reading the
sentinel or on the 1-second deadline. -/
theorem pen_release_publish_order (env : HwEnv) (pe : PenEnv) (cpu : Nat) :
    (secondary_pen_release env pe cpu).2 =
      [Ev.lockAcquire, Ev.penWrite (env.cpu_logical_map cpu % U64), Ev.wmb,
       Ev.dcacheFlush, Ev.sev] ++
        pollTr (env.cpu_logical_map cpu % U64) pe.arrival ++
        [Ev.lockRelease,
         Ev.penRead (pollExit (env.cpu_logical_map cpu % U64) pe.arrival +
           pe.postDelay)] ∧
    (∀ d, Ev.udelay d ∈ (secondary_pen_release env pe cpu).2 → d = 10) ∧
    (∀ t, Ev.penRead t ∈ pollTr (env.cpu_logical_map cpu % U64) pe.arrival →
        t % 10 = 0 ∧ t < BOOT_TIMEOUT_US) ∧
    (penAt (env.cpu_logical_map cpu % U64) pe.arrival
        (pollExit (env.cpu_logical_map cpu % U64) pe.arrival) = INVALID_HWID ∨
      BOOT_TIMEOUT_US ≤ pollExit (env.cpu_logical_map cpu % U64) pe.arrival) := by
  have htr : (secondary_pen_release env pe cpu).2 =
      [Ev.lockAcquire, Ev.penWrite (env.cpu_logical_map cpu % U64), Ev.wmb,
       Ev.dcacheFlush, Ev.sev] ++
        pollTr (env.cpu_logical_map cpu % U64) pe.arrival ++
        [Ev.lockRelease,
         Ev.penRead (pollExit (env.cpu_logical_map cpu % U64) pe.arrival +
           pe.postDelay)] := by
    simp [secondary_pen_release, write_pen_release_tr]
  refine ⟨htr, ?_, ?_, ?_⟩
  · intro d hd
    rw [htr] at hd
    rcases List.mem_append.mp hd with hd | hd
    · rcases List.mem_append.mp hd with hd | hd
      · simp at hd
      · rcases pollTraceF_mem (env.cpu_logical_map cpu % U64) pe.arrival
          BOOT_TIMEOUT_US BOOT_TIMEOUT_US 0 (Ev.udelay d) hd with ⟨t, ht, -, -, -⟩ | ht
        · exact absurd ht (by simp)
        · injection ht with h
    · simp at hd
  · intro t ht
    rcases pollTraceF_mem (env.cpu_logical_map cpu % U64) pe.arrival
      BOOT_TIMEOUT_US BOOT_TIMEOUT_US 0 (Ev.penRead t) ht with ⟨u, hu, hmod, _, hlt⟩ | hu
    · injection hu with hu
      subst hu
      exact ⟨by simpa using hmod, hlt⟩
    · exact absurd hu (by simp)
  · have hcond := pollExitF_cond (env.cpu_logical_map cpu % U64) pe.arrival
      BOOT_TIMEOUT_US BOOT_TIMEOUT_US 0 (by decide)
    exact hcond

/-- Witness for C6: the concrete publish-order equality for a secondary
arriving 15 microseconds after publish, together with an instantiation of
the delay property at the 10-microsecond delay event. -/
theorem pen_release_publish_order_witness :
    (secondary_pen_release env_ok pe15 0).2 =
      [Ev.lockAcquire, Ev.penWrite (env_ok.cpu_logical_map 0 % U64), Ev.wmb,
       Ev.dcacheFlush, Ev.sev] ++
        pollTr (env_ok.cpu_logical_map 0 % U64) pe15.arrival ++
        [Ev.lockRelease,
         Ev.penRead (pollExit (env_ok.cpu_logical_map 0 % U64) pe15.arrival +
           pe15.postDelay)] ∧
    (10 : Nat) = 10 :=
  ⟨(pen_release_publish_order env_ok pe15 0).1,
   (pen_release_publish_order env_ok pe15 0).2.1 10 (by decide)⟩

/-- Claim C8: the secondary's post-boot hook writes the sentinel into the
pen word (store, write barrier, cache flush), then acquires and
immediately releases the boot lock; it mutates nothing but the pen word,
and nothing at all inside the critical section. -/
theorem postboot_frame (st : PostState) :
    (msm_cpu_postboot st).1.pen = INVALID_HWID ∧
    (∀ c, (msm_cpu_postboot st).1.cold_boot_done c = st.cold_boot_done c) ∧
    (msm_cpu_postboot st).2 =
      [Ev.penWrite INVALID_HWID, Ev.wmb, Ev.dcacheFlush, Ev.lockAcquire,
       Ev.lockRelease] := by
  have hmod : INVALID_HWID % U64 = INVALID_HWID := by decide
  refine ⟨?_, fun c => rfl, ?_⟩
  · show (write_pen_release st INVALID_HWID).1.pen = INVALID_HWID
    simp [write_pen_release, hmod]
  · simp [msm_cpu_postboot, write_pen_release, write_pen_release_tr, hmod]

/-- Claim C2: a core's `cold_boot_done` flag is never cleared (so it
transitions false-to-true at most once across a boot session), the
one-time power-on runs only when the flag is false (a boot with the flag
set performs exactly the pen-release handshake), and across any sequence
of boots of the same core at most one call emits the power-rail write
sequence. -/
theorem cold_boot_once (env : HwEnv) (cpu : Nat) (st : KState) (pes : List PenEnv) :
    (∀ pe c, st.cold_boot_done c = true →
        (msm_cpu_boot env pe st cpu).2.1.cold_boot_done c = true) ∧
    (∀ c, st.cold_boot_done c = true →
        (runBoots env cpu st pes).1.cold_boot_done c = true) ∧
    (st.cold_boot_done cpu = true → ∀ pe,
        (msm_cpu_boot env pe st cpu).2.2 = (secondary_pen_release env pe cpu).2) ∧
    ((runBoots env cpu st pes).2).countP (fun o => (o.2).any isAccWrite) ≤ 1 :=
  ⟨fun pe c h => boot_mono env pe st cpu c h,
   fun c h => run_mono env cpu pes st c h,
   fun h pe => by rw [boot_done env pe st cpu h],
   run_acc_le_one env cpu pes st⟩

/-- Witness for C2: booting core 1 does not clear core 5's flag. -/
theorem cold_boot_once_witness :
    (msm_cpu_boot env_ok pe0 st_five 1).2.1.cold_boot_done 5 = true :=
  (cold_boot_once env_ok 1 st_five []).1 pe0 5 (by decide)

/-- Claim C3: in every reachable interleaving of concurrent
`secondary_pen_release` callers, any thread between its lock acquisition
and release owns the boot lock, hence at most one wake request is
mid-handshake at any instant, and any step that publishes a non-sentinel
value into the pen word is taken by the unique lock-owning thread — a
second hardware id can never be published while a wake is outstanding. -/
theorem wake_mutual_exclusion (n : Nat) (hw : Nat → Nat) (s : PSys n)
    (h : PReach hw s) :
    (∀ i : Fin n, s.pc i = PPhase.locked ∨ s.pc i = PPhase.published →
        s.owner = some i) ∧
    (∀ i j : Fin n, (s.pc i = PPhase.locked ∨ s.pc i = PPhase.published) →
        (s.pc j = PPhase.locked ∨ s.pc j = PPhase.published) → i = j) ∧
    (∀ s' : PSys n, PStep hw s s' → s'.pen ≠ s.pen → s'.pen ≠ INVALID_HWID →
        ∃ i : Fin n, s.owner = some i ∧ s.pc i = PPhase.locked ∧
          s'.pen = hw i.val % U64) := by
  have hinv := preach_inv hw h
  refine ⟨hinv, ?_, ?_⟩
  · intro i j hi hj
    have h1 := hinv i hi
    have h2 := hinv j hj
    rw [h1] at h2
    exact Option.some.inj h2
  · intro s' hstep hne hninv
    cases hstep with
    | lock i hpc hown => exact absurd rfl hne
    | publish i hpc => exact ⟨i, hinv i (Or.inl hpc), hpc, rfl⟩
    | unlock i hpc => exact absurd rfl hne
    | clear => exact absurd rfl hninv

/-- Witness for C3: in the reachable one-thread state where thread 0 has
taken the lock, thread 0 is recorded as the lock owner. -/
theorem wake_mutual_exclusion_witness :
    psys1.owner = some 0 :=
  (wake_mutual_exclusion 1 map1 psys1
      (Relation.ReflTransGen.single (PStep.lock (pinit 1) 0 rfl rfl))).1 0
    (Or.inl (by simp [psys1]))

/-- Claim C9: when the cold-boot power-on inside `msm_cpu_boot` fails,
the call returns that error, the state (in particular the core's
`cold_boot_done` flag) is unchanged, the trace is exactly the power-on's
trace, and no pen-release handshake is attempted: the trace consists of
hardware register events only — no pen write, no lock acquisition. -/
theorem boot_powerfail_atomic (env : HwEnv) (pe : PenEnv) (st : KState) (cpu : Nat)
    (hflag : st.cold_boot_done cpu = false)
    (hfail : (msm_unclamp_secondary_arm_cpu env cpu).1 ≠ 0) :
    (msm_cpu_boot env pe st cpu).1 = (msm_unclamp_secondary_arm_cpu env cpu).1 ∧
    (msm_cpu_boot env pe st cpu).2.1 = st ∧
    (msm_cpu_boot env pe st cpu).2.2 = (msm_unclamp_secondary_arm_cpu env cpu).2 ∧
    ((msm_cpu_boot env pe st cpu).2.2).all isHwEv = true := by
  have hb : msm_cpu_boot env pe st cpu =
      ((msm_unclamp_secondary_arm_cpu env cpu).1, st,
       (msm_unclamp_secondary_arm_cpu env cpu).2) := by
    rw [msm_cpu_boot, if_pos hflag, if_pos hfail]
  refine ⟨by rw [hb], by rw [hb], by rw [hb], ?_⟩
  rw [hb]
  exact unclamp_trace_hw env cpu

/-- Witness for C9: a boot whose ACC block fails to map returns the
power-on error and emits hardware register events only. -/
theorem boot_powerfail_atomic_witness :
    (msm_cpu_boot env_noaccmap pe0 st_false 0).1 =
      (msm_unclamp_secondary_arm_cpu env_noaccmap 0).1 ∧
    ((msm_cpu_boot env_noaccmap pe0 st_false 0).2.2).all isHwEv = true :=
  ⟨(boot_powerfail_atomic env_noaccmap pe0 st_false 0 (by decide) (by decide)).1,
   (boot_powerfail_atomic env_noaccmap pe0 st_false 0 (by decide) (by decide)).2.2.2⟩

/-- Claim C10: every successful `msm_cpu_prepare` call, whatever core it
prepares, sets the `cold_boot_done` flag of core 0 — not the flag of the
prepared core — so a subsequent boot of core 0 skips the cold-boot
power-on entirely; and on any failure (invalid hardware id or firmware
rejection) the state is left unchanged. -/
theorem prepare_marks_cpu0 (env : HwEnv) (st : KState) (cpu : Nat) :
    ((msm_cpu_prepare env st cpu).1 = 0 →
        (msm_cpu_prepare env st cpu).2.cold_boot_done 0 = true ∧
        (∀ c, c ≠ 0 →
            (msm_cpu_prepare env st cpu).2.cold_boot_done c = st.cold_boot_done c) ∧
        (∀ pe, (msm_cpu_boot env pe (msm_cpu_prepare env st cpu).2 0).2.2 =
            (secondary_pen_release env pe 0).2)) ∧
    ((msm_cpu_prepare env st cpu).1 ≠ 0 → (msm_cpu_prepare env st cpu).2 = st) := by
  by_cases h1 : env.cpu_logical_map cpu % U64 &&& MPIDR_NOT_HWID_MASK ≠ 0
  · have hp : msm_cpu_prepare env st cpu = (-ENOSYS, st) := by
      rw [msm_cpu_prepare, if_pos h1]
    constructor
    · intro h0
      rw [hp] at h0
      exact absurd (show (-ENOSYS : Int) = 0 from h0) (by decide)
    · intro _
      rw [hp]
  · by_cases h2 : env.scm_ret cpu ≠ 0
    · have hp : msm_cpu_prepare env st cpu = (-ENOSYS, st) := by
        rw [msm_cpu_prepare, if_neg h1, if_pos h2]
      constructor
      · intro h0
        rw [hp] at h0
        exact absurd (show (-ENOSYS : Int) = 0 from h0) (by decide)
      · intro _
        rw [hp]
    · by_cases h3 : st.cold_boot_done 0 = false
      · have hp : msm_cpu_prepare env st cpu =
            (0, ⟨fun c => if c = 0 then true else st.cold_boot_done c⟩) := by
          rw [msm_cpu_prepare, if_neg h1, if_neg h2, if_pos h3]
        constructor
        · intro _
          refine ⟨by rw [hp]; simp, ?_, ?_⟩
          · intro c hc
            rw [hp]
            simp [hc]
          · intro pe
            have hdone : (msm_cpu_prepare env st cpu).2.cold_boot_done 0 = true := by
              rw [hp]
              simp
            rw [boot_done env pe _ 0 hdone]
        · intro h0
          rw [hp] at h0
          exact absurd rfl h0
      · have h3' : st.cold_boot_done 0 = true := by
          cases hb : st.cold_boot_done 0
          · exact absurd hb h3
          · rfl
        have hp : msm_cpu_prepare env st cpu = (0, st) := by
          rw [msm_cpu_prepare, if_neg h1, if_neg h2, if_neg h3]
        constructor
        · intro _
          refine ⟨?_, ?_, ?_⟩
          · rw [hp]
            exact h3'
          · intro c hc
            rw [hp]
          · intro pe
            have hdone : (msm_cpu_prepare env st cpu).2.cold_boot_done 0 = true := by
              rw [hp]
              exact h3'
            rw [boot_done env pe _ 0 hdone]
        · intro h0
          rw [hp] at h0
          exact absurd rfl h0

/-- Witness for C10: successfully preparing core 3 sets core 0's flag. -/
theorem prepare_marks_cpu0_witness :
    (msm_cpu_prepare env_ok st_false 3).2.cold_boot_done 0 = true :=
  ((prepare_marks_cpu0 env_ok st_false 3).1 (by decide)).1

end CpuOps
